import Mathlib

/-!
Verification development for the mushi plugin runtime (handler.js / manager.js).

The JavaScript sources are shallowly embedded: each method of `Handler` /
`PluginManager` that the specification's claims touch is translated into an
executable Lean function; mutable fields (the recent-event-id window, the
task registry, the caches, the plugin tables) become explicit state passed
in and out; JS objects / `Map`s used as string-keyed dictionaries become
association lists with JS insertion-order set/get/delete semantics; `async`
functions returning or raising are modelled with `Option` / `Except`.
-/

namespace Mushi

/-! ## JS object / Map semantics

`obj[k] = v` on a plain object or `map.set(k, v)` replaces the value of an
existing key in place (keeping its position in insertion order) or appends a
fresh key at the end; `obj[k]` / `map.get(k)` returns the value or
undefined; `delete obj[k]` / `map.delete(k)` removes the key. -/

def objSet {α : Type} : List (String × α) → String → α → List (String × α)
  | [], k, v => [(k, v)]
  | (k', v') :: rest, k, v =>
    if k' = k then (k, v) :: rest else (k', v') :: objSet rest k v

def objGet {α : Type} : List (String × α) → String → Option α
  | [], _ => Option.none
  | (k', v') :: rest, k => if k' = k then Option.some v' else objGet rest k

def objErase {α : Type} (m : List (String × α)) (k : String) : List (String × α) :=
  m.filter (fun p => p.1 ≠ k)

/-! ## Recent-event-id dedup window (`Handler.idExist` / `Handler.isSafe`)

`watchID` is a JS array used as a FIFO: `shift()` drops the front element,
`push(x)` appends at the back.  `ctx.id` may be `undefined`, so ids are
`Option String`.  A context carries `eventType` and the extracted message
`type`, both possibly `undefined`. -/

structure SCtx where
  id : Option String := Option.none
  eventType : Option String := Option.none
  type : Option String := Option.none
deriving DecidableEq

/-- `Handler.idExist(ctx)`:
if `watchID.includes(ctx?.id)` return true; else
`if (watchID.length >= 100) watchID.shift(); watchID.push(ctx.id); return false`.
Returns the result together with the updated window. -/
def idExist (i : Option String) (w : List (Option String)) :
    Bool × List (Option String) :=
  if i ∈ w then (true, w)
  else (false, (if w.length ≥ 100 then w.tail else w) ++ [i])

/-- `Handler.isSafe(ctx)`: unsafe when the event is an `append` delivery, a
`senderKeyDistributionMessage`, has an unset/unknown type, or its id is
already in the window; `idExist` (and hence the window mutation) only runs
when the type is neither prekey nor undefined. -/
def isSafe (ctx : SCtx) (w : List (Option String)) :
    Bool × List (Option String) :=
  let isAppend := ctx.eventType = Option.some "append"
  let isPrekey := ctx.type = Option.some "senderKeyDistributionMessage"
  let isUndefined := ctx.type = Option.some "undefined" ∨ ctx.type = Option.none
  let r := if isPrekey ∨ isUndefined then (false, w) else idExist ctx.id w
  (!(isAppend ∨ isPrekey ∨ isUndefined ∨ r.1 = true : Bool), r.2)

/-- One call in a sequence of `idExist`/`isSafe` invocations, acting on the
window state. -/
inductive WinOp where
  | idE (ctx : SCtx)
  | safe (ctx : SCtx)
deriving DecidableEq

def winStep (w : List (Option String)) : WinOp → List (Option String)
  | WinOp.idE ctx => (idExist ctx.id w).2
  | WinOp.safe ctx => (isSafe ctx w).2

/-- The window after a sequence of `idExist`/`isSafe` calls starting from the
freshly-constructed handler (`this.watchID = []`). -/
def winRun (ops : List WinOp) : List (Option String) :=
  ops.foldl winStep []

/-! ## Singleton task registry (`Handler.runTask`)

`taskList` is a plain object mapping a task id to the in-flight promise.
Promises are modelled by tokens drawn from a fresh-token counter: two calls
return literally the same promise iff they return the same token.  The async
IIFE wrapping `fn` is split into its start (`runTask`, which allocates the
promise and stores it) and its settlement (`settleTask`, the `finally`
clause deleting the registry entry; `taskBody`, the value the wrapper
promise settles with). -/

structure TaskState where
  taskList : List (String × Nat) := []
  nextTask : Nat := 0
deriving DecidableEq

/-- `Handler.runTask(id, fn)`: if `taskList[id]` is set, return that promise
(second component `false`: no new execution of `fn` starts); otherwise start
`fn` inside the logging/cleanup wrapper, store the wrapper promise under
`id`, and return it (second component `true`: a fresh execution started). -/
def runTask (id : String) (st : TaskState) : Nat × Bool × TaskState :=
  match objGet st.taskList id with
  | Option.some t => (t, false, st)
  | Option.none =>
    let t := st.nextTask
    (t, true, ⟨objSet st.taskList id t, st.nextTask + 1⟩)

/-- Outcome of the wrapper promise, given the outcome of `fn()`:
`try { return await fn() } catch (e) { pen.Error(...) }` — a successful `fn`
resolves the wrapper with its value; a rejecting `fn` is caught and logged,
falling off the end of the body, so the wrapper RESOLVES with `undefined`
(`Option.none`); it never rejects. -/
def taskBody {α : Type} (fnResult : Except String α) : Except String (Option α) :=
  match fnResult with
  | Except.ok v => Except.ok (Option.some v)
  | Except.error _ => Except.ok Option.none

/-- The `finally { delete this.taskList[id] }` clause, run when the wrapper
promise settles, on success or failure alike. -/
def settleTask (id : String) (st : TaskState) : TaskState :=
  ⟨objErase st.taskList id, st.nextTask⟩

/-! ## Timer cache, `sendMessage` and `relayMessage`

`timerCache` maps a chat jid to its disappearing-message duration.  The
transport call (`this.client.sock.sendMessage(...)` /
`...relayMessage(...)`) is represented by the value the embedded function
produces: `Except.ok call` means the transport was invoked with exactly
those arguments; `Except.error msg` means the body threw `msg` before any
transport call.  The public methods wrap their whole body in
`try { ... } catch (e) { this.#pen.Error(...) }`, so a thrown error is
caught and logged and the method resolves with `undefined` (`Option.none`). -/

def getTimer (timerCache : List (String × Int)) (jid : String) : Option Int :=
  objGet timerCache jid

/-- `Handler.updateTimer(jid, ephemeral)`: when `jid` is truthy, a changed
falsy duration (`0`/`undefined`) deletes the entry, a changed truthy
duration stores it. -/
def updateTimer (timerCache : List (String × Int)) (jid : Option String)
    (ephemeral : Option Int) : List (String × Int) :=
  match jid with
  | Option.none => timerCache
  | Option.some j =>
    if j = "" then timerCache
    else
      let data := objGet timerCache j
      if data ≠ ephemeral then
        if ephemeral = Option.none ∨ ephemeral = Option.some 0 then
          objErase timerCache j
        else
          match ephemeral with
          | Option.some v => objSet timerCache j v
          | Option.none => objErase timerCache j
      else timerCache

structure SOptions where
  messageId : Option String := Option.none
  ephemeralExpiration : Option Int := Option.none
deriving DecidableEq

structure SendCall where
  jid : String
  content : String
  options : SOptions
deriving DecidableEq

/-- Body of `Handler.sendMessage(jid, content, options)` (the code inside its
`try`): throw when content is missing; default `options` to a fresh object;
fill in a random `messageId` when absent (`freshId` stands for the
`genHEX(32)` value); copy a positive stored timer into
`options.ephemeralExpiration`; then invoke the transport. -/
def sendMessageBody (timerCache : List (String × Int)) (jid : String)
    (content : Option String) (options : Option SOptions) (freshId : String) :
    Except String SendCall :=
  match content with
  | Option.none => Except.error "content not provided"
  | Option.some c =>
    let o := options.getD {}
    let o := if o.messageId = Option.none ∨ o.messageId = Option.some "" then
        { o with messageId := Option.some freshId } else o
    let ephemeral := getTimer timerCache jid
    let o := match ephemeral with
      | Option.some v => if v ≠ 0 ∧ v > 0 then
          { o with ephemeralExpiration := Option.some v } else o
      | Option.none => o
    Except.ok ⟨jid, c, o⟩

/-- `Handler.sendMessage` as seen by its caller: `Except.error` would be an
exception propagating out of the method (the returned promise rejecting);
`Except.ok` is a normal return, carrying the transport call's result or
`undefined`.  The method's own `try/catch` turns every thrown error into a
logged message and an `undefined` return, so the caller never observes an
exception. -/
def sendMessage (timerCache : List (String × Int)) (jid : String)
    (content : Option String) (options : Option SOptions) (freshId : String) :
    Except String (Option SendCall) :=
  match sendMessageBody timerCache jid content options freshId with
  | Except.ok call => Except.ok (Option.some call)
  | Except.error _ => Except.ok Option.none

/-- `contextInfo` of a message field; only `expiration` is touched by the
relay path. -/
structure RCtxInfo where
  expiration : Option Int := Option.none
deriving DecidableEq

/-- An object-valued field of a relayed `proto.IMessage` (e.g.
`extendedTextMessage`, `imageMessage`): carries an optional `contextInfo`. -/
structure RObj where
  contextInfo : Option RCtxInfo := Option.none
deriving DecidableEq

/-- A relayed `proto.IMessage`: the bare string field `conversation` plus
the object-valued fields in key order. -/
structure RContent where
  conversation : Option String := Option.none
  objFields : List (String × RObj) := []
deriving DecidableEq

inductive ROut where
  /-- the (possibly mutated) original content object -/
  | plain (c : RContent)
  /-- the `{ extendedTextMessage: { text, contextInfo: { expiration } } }`
  rewrite of a bare `conversation` body -/
  | extended (text : String) (expiration : Int)
deriving DecidableEq

structure RelayCall where
  jid : String
  content : ROut
  messageId : Option String
deriving DecidableEq

/-- Body of `Handler.relayMessage(jid, content, options)` (inside its
`try`): throw when content is missing; default options and `messageId`;
with a positive stored timer, stamp `contextInfo.expiration` onto every
truthy object-valued field (creating `contextInfo` when absent), and
rewrite a bare `conversation` body into the `extendedTextMessage` form;
then invoke the transport. -/
def relayMessageBody (timerCache : List (String × Int)) (jid : String)
    (content : Option RContent) (messageId : Option String) (freshId : String) :
    Except String RelayCall :=
  match content with
  | Option.none => Except.error "content not provided"
  | Option.some c =>
    let mid := if messageId = Option.none ∨ messageId = Option.some "" then
        Option.some freshId else messageId
    let ephemeral := getTimer timerCache jid
    match ephemeral with
    | Option.some v =>
      if v ≠ 0 ∧ v > 0 then
        let c' : RContent :=
          { c with objFields := c.objFields.map (fun kv =>
              (kv.1,
                match kv.2.contextInfo with
                | Option.none => { contextInfo := Option.some { expiration := Option.some v } }
                | Option.some ci =>
                  { contextInfo := Option.some { ci with expiration := Option.some v } })) }
        match c'.conversation with
        | Option.some t =>
          if t ≠ "" ∧ v > 0 then Except.ok ⟨jid, ROut.extended t v, mid⟩
          else Except.ok ⟨jid, ROut.plain c', mid⟩
        | Option.none => Except.ok ⟨jid, ROut.plain c', mid⟩
      else Except.ok ⟨jid, ROut.plain c, mid⟩
    | Option.none => Except.ok ⟨jid, ROut.plain c, mid⟩

/-- `Handler.relayMessage` as seen by its caller: like `sendMessage`, its
`try/catch` catches and logs every thrown error and the method returns
`undefined`, so `Except.error` (an exception reaching the caller) never
occurs. -/
def relayMessage (timerCache : List (String × Int)) (jid : String)
    (content : Option RContent) (messageId : Option String) (freshId : String) :
    Except String (Option RelayCall) :=
  match relayMessageBody timerCache jid content messageId freshId with
  | Except.ok call => Except.ok (Option.some call)
  | Except.error _ => Except.ok Option.none

/-! ## Plugin manager (`PluginManager.add`, `PluginManager.genPlugins`)

A descriptor's `cmd` is `undefined`, a single string, or an array of
strings; its JS truthiness decides command vs listener (note a string is
falsy exactly when empty, while any array — even `[]` — is truthy). -/

inductive CmdField where
  | undef
  | str (s : String)
  | arr (l : List String)
deriving DecidableEq

def cmdTruthy : CmdField → Bool
  | CmdField.undef => false
  | CmdField.str s => s ≠ ""
  | CmdField.arr _ => true

/-- `genPlugins`'s alias expansion: `if (Array.isArray(plugin?.cmd))
cmds.push(...plugin.cmd); else if (typeof plugin?.cmd === 'string')
cmds.push(plugin.cmd)`. -/
def cmdList : CmdField → List String
  | CmdField.undef => []
  | CmdField.str s => [s]
  | CmdField.arr l => l

/-- An author-supplied plugin descriptor; `exec` and `final` are modelled by
optional tags naming the action, `Option.none` meaning the function is not
supplied. -/
structure PluginDesc where
  cmd : CmdField := CmdField.undef
  noPrefix : Bool := false
  exec : Option String := Option.none
  final : Option String := Option.none
deriving DecidableEq

/-- Modelled from the spec: `plugin.js` (the `Plugin` class) is not among
the sources; per §3 a Plugin "wraps exactly one descriptor", carrying its
command aliases, action and finalizer unchanged under the uniform
`check`/`exec`/`final` contract, with `location` assigned at registration
(every handler revision reads `plugin.cmd` / `plugin.noPrefix` /
`plugin.exec` straight off the wrapper). -/
structure Plugin where
  cmd : CmdField
  noPrefix : Bool
  exec : Option String
  final : Option String
  location : String
deriving DecidableEq

def Plugin.ofDesc (d : PluginDesc) (loc : String) : Plugin :=
  ⟨d.cmd, d.noPrefix, d.exec, d.final, loc⟩

/-- `PluginManager.plugins : Map(filePath → { pluginKey → Plugin })`. -/
def MgrMap : Type := List (String × List (String × Plugin))

/-- `PluginManager.add(filePath, ...plugins)`: drop any previous entry for
the location, then register every descriptor — with no check of `exec` —
under `hash(filePath) + "-" + index` (`hashPath` stands for the
`hashCRC32(filePath)` value). -/
def addPlugins (mgr : MgrMap) (filePath : String) (hashPath : String)
    (descs : List PluginDesc) : MgrMap :=
  let mgr := objErase mgr filePath
  let entry := descs.enum.map (fun iv =>
    (hashPath ++ "-" ++ toString iv.1, Plugin.ofDesc iv.2 filePath))
  objSet mgr filePath entry

/-- `PluginManager.getPlugin(filePath, pluginKey)` — the resolution every
table entry's `getPlugin()` closure performs against the live map. -/
def getPlugin (mgr : MgrMap) (filePath : String) (pluginKey : String) :
    Option Plugin :=
  match objGet mgr filePath with
  | Option.some pluginMap => objGet pluginMap pluginKey
  | Option.none => Option.none

/-- A `PluginResultItem`: the prefix used for this pattern (absent for a
bare entry), the plugin key and its source path — through which
`getPlugin()` resolves. -/
structure PRItem where
  pfx : Option String := Option.none
  pluginKey : String
  pluginPath : String
deriving DecidableEq

structure PluginResult where
  listener : List (String × PRItem) := []
  command : List (String × PRItem) := []
deriving DecidableEq

def PluginResult.addListener (res : PluginResult) (k : String) (it : PRItem) :
    PluginResult :=
  { res with listener := objSet res.listener k it }

def PluginResult.addCommand (res : PluginResult) (k : String) (it : PRItem) :
    PluginResult :=
  { res with command := objSet res.command k it }

/-- `PluginManager.genPlugins(prefix, filter)`: iterate every registered
plugin; filtered-out plugins are skipped; a plugin with falsy `cmd` becomes
a listener entry keyed by its plugin key; otherwise each alias is expanded
with every configured prefix when the prefix list is non-empty, else
registered bare.  `noPrefix` is never consulted, and pattern keys are
stored exactly as written (no lowercasing). -/
def genPlugins (prefixes : List String) (filter : Option (Plugin → Bool))
    (mgr : MgrMap) : PluginResult :=
  mgr.foldl (fun res fileEntry =>
    fileEntry.2.foldl (fun res keyPlugin =>
      let key := keyPlugin.1
      let plugin := keyPlugin.2
      let skip := match filter with
        | Option.some f => !f plugin
        | Option.none => false
      if skip then res
      else if !cmdTruthy plugin.cmd then
        res.addListener key ⟨Option.none, key, fileEntry.1⟩
      else
        (cmdList plugin.cmd).foldl (fun res cmd =>
          if prefixes.length > 0 then
            prefixes.foldl (fun res p =>
              res.addCommand (p ++ cmd) ⟨Option.some p, key, fileEntry.1⟩) res
          else
            res.addCommand cmd ⟨Option.none, key, fileEntry.1⟩) res) res)
    {}

/-! ## Dispatch (`Handler.handle`)

The per-plugin dispatch step shared by the listener loop and the command
branch: resolve the live plugin through `getPlugin()` (skip when it
vanished), evaluate its guard (`check`, whose success is supplied here as
`checkSuccess`), on failure invoke `final` when present, on success invoke
`exec` when present (`if (listen.exec) await listen.exec(ctx)`). -/

structure DispatchOutcome where
  execRan : Option String := Option.none
  finalRan : Bool := false
deriving DecidableEq

def dispatchStep (pl : Option Plugin) (checkSuccess : Bool) : DispatchOutcome :=
  match pl with
  | Option.none => {}
  | Option.some p =>
    if !checkSuccess then { finalRan := p.final.isSome }
    else match p.exec with
      | Option.some tag => { execRan := Option.some tag }
      | Option.none => {}

/-- `String.prototype.toLowerCase()` on the ASCII patterns involved:
lower-case every character. -/
def jsToLower (s : String) : String := String.mk (s.data.map Char.toLower)

/-- The command lookup of `Handler.handle`: only when `ctx.pattern` is
truthy and the safety gate passed, `getCMD(ctx.pattern.toLowerCase())`
consults the command table; an absent key ends dispatch silently. -/
def handleCommandLookup (command : List (String × PRItem))
    (pattern : Option String) (safe : Bool) : Option PRItem :=
  match pattern with
  | Option.none => Option.none
  | Option.some p =>
    if p ≠ "" ∧ safe then objGet command (jsToLower p) else Option.none

/-- The whole command phase of `Handler.handle`: look the lowered pattern up
and, when found, resolve the live plugin and run the dispatch step. -/
def handleCommandPhase (mgr : MgrMap) (command : List (String × PRItem))
    (pattern : Option String) (safe : Bool) (checkSuccess : Bool) :
    DispatchOutcome :=
  match handleCommandLookup command pattern safe with
  | Option.none => {}
  | Option.some item =>
    dispatchStep (getPlugin mgr item.pluginPath item.pluginKey) checkSuccess

/-! ## Group metadata reconciliation (`Handler.updateGroupMetadata`)

Event name constants (`const.js` re-exports the baileys event keys):
`Events.GROUP_PARTICIPANTS_UPDATE = 'group-participants.update'`,
`Events.GROUPS_UPDATE = 'groups.update'`,
`Events.GROUPS_UPSERT = 'groups.upsert'`. -/

def GROUP_PARTICIPANTS_UPDATE : String := "group-participants.update"
def GROUPS_UPDATE : String := "groups.update"

structure Participant where
  id : String
  lid : Option String := Option.none
  jid : Option String := Option.none
  admin : Option String := Option.none
deriving DecidableEq

/-- The predicate of the `remove` branch's `findIndex`:
`part.id === rm || part.lid === rm || part.jid === rm`. -/
def partMatches (rm : String) (p : Participant) : Bool :=
  p.id == rm || p.lid == Option.some rm || p.jid == Option.some rm

/-- `const i = data.participants.findIndex(...); if (i !== -1)
{ data.participants.splice(i, 1); updated = true; }` — remove the first
participant matching `rm`, reporting whether one was removed. -/
def removeOne (rm : String) : List Participant → List Participant × Bool
  | [] => ([], false)
  | p :: ps =>
    if partMatches rm p then (ps, true)
    else
      let r := removeOne rm ps
      (p :: r.1, r.2)

/-- The `remove` action loops `for (const rm of ctx.mentionedJid)`, keeping
`updated` sticky once a removal happened. -/
def removeParticipants (mentioned : List String)
    (parts : List Participant) (updated : Bool) : List Participant × Bool :=
  mentioned.foldl (fun acc rm =>
    let r := removeOne rm acc.1
    (r.1, acc.2 || r.2)) (parts, updated)

/-- The `promote`/`demote` condition:
`ctx.mentionedJid?.includes(part.id) || ctx.mentionedJid?.includes(part.lid)`. -/
def partMentioned (mentioned : List String) (p : Participant) : Bool :=
  mentioned.contains p.id ||
    (match p.lid with
     | Option.some l => mentioned.contains l
     | Option.none => false)

/-- The `GROUP_PARTICIPANTS_UPDATE` switch over `ctx.action`, acting on the
cached record's participant list and the `updated` flag.  In the `add`
branch `updated = true && !add.endsWith('@lid')` is re-assigned on every
iteration (the last added jid decides); in the other branches `updated`
is only ever set to `true`. -/
def applyParticipantsAction (action : Option String) (mentioned : List String)
    (parts : List Participant) (updated : Bool) : List Participant × Bool :=
  match action with
  | Option.some a =>
    if a = "add" then
      mentioned.foldl (fun acc m =>
        (acc.1 ++ [{ id := m }], !m.endsWith "@lid")) (parts, updated)
    else if a = "remove" then
      removeParticipants mentioned parts updated
    else if a = "promote" then
      (parts.map (fun p =>
        if partMentioned mentioned p then { p with admin := Option.some "admin" } else p),
       updated || parts.any (partMentioned mentioned))
    else if a = "demote" then
      (parts.map (fun p =>
        if partMentioned mentioned p then { p with admin := Option.none } else p),
       updated || parts.any (partMentioned mentioned))
    else (parts, updated)
  | Option.none => (parts, updated)

/-- A `groups.update` event field value: the fields `updateGroupMetadata`
may merge into the cached record. -/
inductive GVal where
  | str (s : String)
  | int (n : Int)
deriving DecidableEq

structure GMeta where
  id : Option String := Option.none
  subject : Option String := Option.none
  participants : List Participant := []
  ephemeralDuration : Option Int := Option.none
  size : Option Nat := Option.none
  /-- remaining dynamic fields copied by the `groups.update` merge -/
  fields : List (String × GVal) := []
deriving DecidableEq

/-- The `GROUPS_UPDATE` branch: `for (const key in ctx.event)`, skipping the
immutable `author`/`id` keys, assigns `data[key] = ctx.event[key]` and
marks the record updated for every copied key. -/
def applyGroupsUpdate (data : GMeta) (ev : List (String × GVal)) :
    GMeta × Bool :=
  ev.foldl (fun acc kv =>
    if kv.1 = "author" ∨ kv.1 = "id" then acc
    else
      let d := acc.1
      let d :=
        if kv.1 = "subject" then
          match kv.2 with
          | GVal.str s => { d with subject := Option.some s }
          | GVal.int _ => { d with fields := objSet d.fields kv.1 kv.2 }
        else if kv.1 = "ephemeralDuration" then
          match kv.2 with
          | GVal.int n => { d with ephemeralDuration := Option.some n }
          | GVal.str _ => { d with fields := objSet d.fields kv.1 kv.2 }
        else { d with fields := objSet d.fields kv.1 kv.2 }
      (d, true)) (data, false)

/-- The slice of a `Ctx` that `updateGroupMetadata` consults. -/
structure GCtx where
  eventName : String
  action : Option String := Option.none
  mentionedJid : List String := []
  eventFields : List (String × GVal) := []
deriving DecidableEq

structure GMOut where
  groupCache : List (String × GMeta)
  timerCache : List (String × Int)
  /-- whether `data = await this.client.sock.groupMetadata(jid)` ran -/
  refetched : Bool
  result : Option GMeta
deriving DecidableEq

/-- `Handler.updateGroupMetadata(jid, ctx)`: patch the cached record
incrementally along the event-specific rules; when nothing was updated
(no cached record, or no incremental rule applied) fall back to a full
transport fetch (`fetched` stands for its result); finally recompute
`size` from the participant list, store the record, and propagate its
ephemeral duration into the timer cache. -/
def updateGroupMetadata (groupCache : List (String × GMeta))
    (timerCache : List (String × Int)) (jid : String) (ctx : Option GCtx)
    (fetched : Option GMeta) : GMOut :=
  let data0 := objGet groupCache jid
  let step : Option GMeta × Bool :=
    match data0, ctx with
    | Option.some d, Option.some c =>
      if c.eventName = GROUP_PARTICIPANTS_UPDATE then
        let r := applyParticipantsAction c.action c.mentionedJid d.participants false
        (Option.some { d with participants := r.1 }, r.2)
      else if c.eventName = GROUPS_UPDATE then
        let r := applyGroupsUpdate d c.eventFields
        (Option.some r.1, r.2)
      else (Option.some d, false)
    | Option.some d, Option.none => (Option.some d, false)
    | Option.none, _ => (Option.none, false)
  let afterFetch : Option GMeta × Bool :=
    if !step.2 then (fetched, true) else (step.1, false)
  match afterFetch.1 with
  | Option.some d =>
    let d' := { d with size := Option.some d.participants.length }
    ⟨objSet groupCache jid d',
     updateTimer timerCache d'.id d'.ephemeralDuration,
     afterFetch.2, Option.some d'⟩
  | Option.none => ⟨groupCache, timerCache, afterFetch.2, Option.none⟩

/-! ## Concrete scenarios used by the claims -/

/-- C2 scenario: a `cmd: 'ping'` plugin (with or without `noPrefix`). -/
def c2Desc (b : Bool) : PluginDesc :=
  { cmd := CmdField.str "ping", noPrefix := b, exec := Option.some "ping-exec" }

def c2Mgr (b : Bool) : MgrMap :=
  addPlugins [] "plugins/ping.js" "abcd1234" [c2Desc b]

def c2Result (b : Bool) : PluginResult :=
  genPlugins [".", "/"] Option.none (c2Mgr b)

/-- C6 scenario: a descriptor with no `exec` (only a finalizer). -/
def c6Desc : PluginDesc := { final := Option.some "cleanup" }

def c6Mgr : MgrMap := addPlugins [] "plugins/noop.js" "beef0000" [c6Desc]

def c6Result : PluginResult := genPlugins [".", "/"] Option.none c6Mgr

/-- C7 scenario: an alias containing an uppercase letter. -/
def c7Desc : PluginDesc :=
  { cmd := CmdField.str "Ping", exec := Option.some "ping-exec" }

def c7Mgr : MgrMap := addPlugins [] "plugins/ping2.js" "cafe0001" [c7Desc]

def c7Result : PluginResult := genPlugins ["."] Option.none c7Mgr

/-- C8 scenario: a cached group of three participants. -/
def c8Parts : List Participant :=
  [⟨"a@s", Option.none, Option.none, Option.none⟩,
   ⟨"b@s", Option.none, Option.none, Option.none⟩,
   ⟨"c@s", Option.none, Option.none, Option.none⟩]

def c8Meta : GMeta := { id := Option.some "g@g.us", participants := c8Parts }

def c8Cache : List (String × GMeta) := [("g@g.us", c8Meta)]

/-! ## Helper lemmas -/

theorem objGet_objSet_self {α : Type} (m : List (String × α)) (k : String) (v : α) :
    objGet (objSet m k v) k = Option.some v := by
  induction m with
  | nil => simp [objSet, objGet]
  | cons hd tl ih =>
    obtain ⟨k', v'⟩ := hd
    by_cases h : k' = k
    · simp [objSet, objGet, h]
    · simp [objSet, objGet, h, ih]

theorem objGet_objErase_self {α : Type} (m : List (String × α)) (k : String) :
    objGet (objErase m k) k = Option.none := by
  induction m with
  | nil => simp [objErase, objGet]
  | cons hd tl ih =>
    obtain ⟨k', v'⟩ := hd
    by_cases h : k' = k
    · simpa [objErase, objGet, h] using ih
    · simpa [objErase, objGet, h] using ih

theorem idExist_length_le (i : Option String) (w : List (Option String))
    (h : w.length ≤ 100) : (idExist i w).2.length ≤ 100 := by
  unfold idExist
  by_cases hm : i ∈ w
  · simpa [hm] using h
  · by_cases hl : w.length ≥ 100
    · have h100 : w.length = 100 := le_antisymm h hl
      simp only [hm, if_false, hl, if_true, List.length_append,
        List.length_tail, List.length_singleton, if_neg, if_pos]
      omega
    · simp only [hm, if_false, hl, List.length_append,
        List.length_singleton, if_neg]
      omega

theorem winStep_length_le (w : List (Option String)) (op : WinOp)
    (h : w.length ≤ 100) : (winStep w op).length ≤ 100 := by
  cases op with
  | idE ctx => exact idExist_length_le ctx.id w h
  | safe ctx =>
    unfold winStep isSafe
    by_cases hc : (ctx.type = Option.some "senderKeyDistributionMessage") ∨
        (ctx.type = Option.some "undefined" ∨ ctx.type = Option.none)
    · simpa [hc] using h
    · simpa [hc] using idExist_length_le ctx.id w h

theorem winRun_length_le (ops : List WinOp) : (winRun ops).length ≤ 100 := by
  suffices h : ∀ w : List (Option String), w.length ≤ 100 →
      (ops.foldl winStep w).length ≤ 100 by
    exact h [] (by simp)
  induction ops with
  | nil => intro w hw; simpa using hw
  | cons op rest ih =>
    intro w hw
    exact ih (winStep w op) (winStep_length_le w op hw)

theorem removeOne_found (rm : String) (l : List Participant)
    (h : ∃ p ∈ l, partMatches rm p = true) :
    (removeOne rm l).2 = true ∧ (removeOne rm l).1.length + 1 = l.length := by
  induction l with
  | nil => simp at h
  | cons q qs ih =>
    by_cases hq : partMatches rm q = true
    · simp [removeOne, hq]
    · have h' : ∃ p ∈ qs, partMatches rm p = true := by
        obtain ⟨p, hp, hpm⟩ := h
        rcases List.mem_cons.mp hp with rfl | hmem
        · exact absurd hpm hq
        · exact ⟨p, hmem, hpm⟩
      have hlen := (ih h').2
      refine ⟨by simp [removeOne, hq, (ih h').1], ?_⟩
      simp [removeOne, hq]
      omega

theorem removeOne_sublist (rm : String) (l : List Participant) :
    (removeOne rm l).1.Sublist l := by
  induction l with
  | nil => simp [removeOne]
  | cons q qs ih =>
    by_cases hq : partMatches rm q = true
    · simp [removeOne, hq]
    · simpa [removeOne, hq] using List.Sublist.cons₂ q ih

theorem removeOne_preserves (rm m : String) (l : List Participant)
    (hdisj : ∀ p ∈ l, ¬(partMatches rm p = true ∧ partMatches m p = true))
    (hm : ∃ p ∈ l, partMatches m p = true) :
    ∃ p ∈ (removeOne rm l).1, partMatches m p = true := by
  induction l with
  | nil => simp at hm
  | cons q qs ih =>
    by_cases hq : partMatches rm q = true
    · obtain ⟨p, hp, hpm⟩ := hm
      rcases List.mem_cons.mp hp with rfl | hmem
      · exact absurd ⟨hq, hpm⟩ (hdisj p (List.mem_cons_self p qs))
      · exact ⟨p, by simp [removeOne, hq, hmem], hpm⟩
    · obtain ⟨p, hp, hpm⟩ := hm
      rcases List.mem_cons.mp hp with rfl | hmem
      · exact ⟨p, by simp [removeOne, hq], hpm⟩
      · obtain ⟨p', hp', hpm'⟩ :=
          ih (fun x hx => hdisj x (List.mem_cons_of_mem q hx)) ⟨p, hmem, hpm⟩
        exact ⟨p', by simp [removeOne, hq, hp'], hpm'⟩

theorem removeOne_mem_of_no_match (rm : String) (l : List Participant)
    (p : Participant) (hp : p ∈ l) (hnp : partMatches rm p = false) :
    p ∈ (removeOne rm l).1 := by
  induction l with
  | nil => simp at hp
  | cons q qs ih =>
    by_cases hq : partMatches rm q = true
    · rcases List.mem_cons.mp hp with rfl | hmem
      · rw [hq] at hnp; exact absurd hnp (by simp)
      · simpa [removeOne, hq] using hmem
    · rcases List.mem_cons.mp hp with rfl | hmem
      · simp [removeOne, hq]
      · simp [removeOne, hq, ih hmem]

/-! ## Claims -/

/-- C1: for every event context whose id is not yet in the recent-event-id
window and which is not otherwise excluded (not an `append` delivery, type
present and neither the key-distribution type nor `'undefined'`), `isSafe`
returns true on the first call with that id and false on an immediately
following call with the same id: the dedup window is populated as a side
effect of the first check. -/
theorem c1_isSafe_dedup (ctx : SCtx) (t : String) (w : List (Option String))
    (hApp : ctx.eventType ≠ Option.some "append")
    (htt : ctx.type = Option.some t)
    (h1 : t ≠ "senderKeyDistributionMessage") (h2 : t ≠ "undefined")
    (hid : ctx.id ∉ w) :
    (isSafe ctx w).1 = true ∧ (isSafe ctx (isSafe ctx w).2).1 = false := by
  have hP : ¬(ctx.type = Option.some "senderKeyDistributionMessage" ∨
      (ctx.type = Option.some "undefined" ∨ ctx.type = Option.none)) := by
    simp [htt, h1, h2]
  constructor
  · simp [isSafe, hP, idExist, hid, hApp]
  · have hw2 : (isSafe ctx w).2 =
        (if w.length ≥ 100 then w.tail else w) ++ [ctx.id] := by
      simp [isSafe, hP, idExist, hid]
    have hmem : ctx.id ∈ (if w.length ≥ 100 then w.tail else w) ++ [ctx.id] :=
      List.mem_append_right _ (List.mem_singleton_self _)
    rw [hw2]
    simp [isSafe, hP, idExist, hmem]

/-- C1 witness: a fresh message context against an empty window. -/
theorem c1_isSafe_dedup_witness :
    (isSafe ⟨Option.some "ID1", Option.some "notify", Option.some "conversation"⟩ []).1 = true ∧
    (isSafe ⟨Option.some "ID1", Option.some "notify", Option.some "conversation"⟩
      (isSafe ⟨Option.some "ID1", Option.some "notify", Option.some "conversation"⟩ []).2).1 = false :=
  c1_isSafe_dedup _ "conversation" [] (by decide) rfl (by decide) (by decide)
    (by decide)

/-- C3: two calls to `runTask` with the same id while the stored promise is
unsettled return the same promise, the second starting no new execution;
after the promise settles (its `finally` removing the registry entry), a
subsequent call starts a fresh execution — and returns a different
promise. -/
theorem c3_runTask_coalesces (id : String) (st : TaskState)
    (h : objGet st.taskList id = Option.none) :
    (runTask id st).2.1 = true ∧
    (runTask id (runTask id st).2.2).1 = (runTask id st).1 ∧
    (runTask id (runTask id st).2.2).2.1 = false ∧
    (runTask id (settleTask id (runTask id (runTask id st).2.2).2.2)).2.1 = true ∧
    (runTask id (settleTask id (runTask id (runTask id st).2.2).2.2)).1 ≠
      (runTask id st).1 := by
  simp [runTask, h, objGet_objSet_self, settleTask, objGet_objErase_self]

/-- C3 witness: an empty registry. -/
theorem c3_runTask_coalesces_witness :
    (runTask "x" {}).2.1 = true ∧
    (runTask "x" (runTask "x" {}).2.2).1 = (runTask "x" {}).1 ∧
    (runTask "x" (runTask "x" {}).2.2).2.1 = false ∧
    (runTask "x" (settleTask "x" (runTask "x" (runTask "x" {}).2.2).2.2)).2.1 = true ∧
    (runTask "x" (settleTask "x" (runTask "x" (runTask "x" {}).2.2).2.2)).1 ≠
      (runTask "x" {}).1 :=
  c3_runTask_coalesces "x" {} rfl

/-- C10: after any sequence of `idExist`/`isSafe` calls starting from the
fresh handler, the recent-event-id window holds at most 100 ids; and when a
new id is recorded while the window is at capacity, the oldest (front)
entry is evicted first, FIFO. -/
theorem c10_window_bounded_fifo (ops : List WinOp) (i : Option String)
    (w : List (Option String)) (hcap : w.length = 100) (hmem : i ∉ w) :
    (winRun ops).length ≤ 100 ∧ (idExist i w).2 = w.tail ++ [i] := by
  refine ⟨winRun_length_le ops, ?_⟩
  simp [idExist, hmem, hcap]

/-- C10 witness: a full window of 100 ids receiving a fresh id. -/
theorem c10_window_bounded_fifo_witness :
    (winRun []).length ≤ 100 ∧
    (idExist (Option.some "x") (List.replicate 100 (Option.some "a"))).2 =
      (List.replicate 100 (Option.some "a")).tail ++ [Option.some "x"] :=
  c10_window_bounded_fifo [] (Option.some "x") (List.replicate 100 (Option.some "a"))
    (by simp) (by simp)

/-- C4 counterexample: with no content, `sendMessage`/`relayMessage` do NOT
throw to the caller — the `throw new Error('content not provided')` inside
the body is swallowed by each method's own `try/catch` (which only logs),
and the caller receives a normal `undefined` (`Except.ok Option.none`),
never a propagated exception (`Except.error`). -/
theorem c4_counterexample :
    sendMessage [] "123@s.whatsapp.net" Option.none Option.none "aa" =
      Except.ok Option.none ∧
    relayMessage [] "123@s.whatsapp.net" Option.none Option.none "aa" =
      Except.ok Option.none :=
  ⟨rfl, rfl⟩

/-- C4 (amended): with no content, both methods raise
`'content not provided'` inside their body before any transport call (no
`SendCall`/`RelayCall` is ever produced), but the methods' own `try/catch`
catches and logs it, so the caller sees a normal `undefined` return rather
than a synchronous throw. -/
theorem c4_no_content_no_transport (tc : List (String × Int)) (jid : String)
    (options : Option SOptions) (messageId : Option String) (freshId : String) :
    sendMessageBody tc jid Option.none options freshId =
      Except.error "content not provided" ∧
    sendMessage tc jid Option.none options freshId = Except.ok Option.none ∧
    relayMessageBody tc jid Option.none messageId freshId =
      Except.error "content not provided" ∧
    relayMessage tc jid Option.none messageId freshId = Except.ok Option.none := by
  refine ⟨rfl, ?_, rfl, ?_⟩ <;> simp [sendMessage, relayMessage,
    sendMessageBody, relayMessageBody]

/-- C5 counterexample: a task function that rejects does NOT make the
stored/returned wrapper promise reject — the wrapper's `catch` swallows the
error (logging it) and the wrapper resolves with `undefined`
(`Except.ok Option.none`), not `Except.error`. -/
theorem c5_counterexample :
    taskBody (α := Nat) (Except.error "boom") = Except.ok Option.none :=
  rfl

/-- C5 (amended): when the task's function throws, the stored promise
settles successfully with `undefined` (the error is caught and logged, not
re-thrown), and the registry entry is still removed on settlement, so a
later `runTask` with the same id starts a new execution. -/
theorem c5_task_error_cleanup (e id : String) (st : TaskState)
    (h : objGet st.taskList id = Option.none) :
    taskBody (α := Nat) (Except.error e) = Except.ok Option.none ∧
    objGet (settleTask id (runTask id st).2.2).taskList id = Option.none ∧
    (runTask id (settleTask id (runTask id st).2.2)).2.1 = true := by
  refine ⟨rfl, ?_, ?_⟩ <;>
    simp [runTask, h, settleTask, objGet_objErase_self]

/-- C5 witness: an empty registry and a rejecting task function. -/
theorem c5_task_error_cleanup_witness :
    taskBody (α := Nat) (Except.error "boom") = Except.ok Option.none ∧
    objGet (settleTask "t" (runTask "t" {}).2.2).taskList "t" = Option.none ∧
    (runTask "t" (settleTask "t" (runTask "t" {}).2.2)).2.1 = true :=
  c5_task_error_cleanup "boom" "t" {} rfl

/-- C9: `sendMessage` to a chat whose stored ephemeral timer is positive
(such as 86400) sets the outgoing options' `ephemeralExpiration` to that
value; to a chat with no stored timer it leaves `ephemeralExpiration`
unset. -/
theorem c9_sendMessage_ephemeral (tc : List (String × Int))
    (jid c freshId : String) (opts : SOptions) (v : Int)
    (hopts : opts.ephemeralExpiration = Option.none) :
    (getTimer tc jid = Option.some v → 0 < v →
      ∃ call, sendMessage tc jid (Option.some c) (Option.some opts) freshId =
          Except.ok (Option.some call) ∧
        call.options.ephemeralExpiration = Option.some v) ∧
    (getTimer tc jid = Option.none →
      ∃ call, sendMessage tc jid (Option.some c) (Option.some opts) freshId =
          Except.ok (Option.some call) ∧
        call.options.ephemeralExpiration = Option.none) := by
  constructor
  · intro htimer hv
    simp only [sendMessage, sendMessageBody, htimer]
    rw [if_pos ⟨hv.ne', hv⟩]
    exact ⟨_, rfl, rfl⟩
  · intro htimer
    simp only [sendMessage, sendMessageBody, htimer]
    refine ⟨_, rfl, ?_⟩
    by_cases hm : opts.messageId = Option.none ∨ opts.messageId = Option.some "" <;>
      simp [hm, hopts]

/-- C9 witness: a chat with a stored timer of 86400, and one with none. -/
theorem c9_sendMessage_ephemeral_witness :
    (∃ call, sendMessage [("g@g.us", 86400)] "g@g.us" (Option.some "hi")
        (Option.some {}) "id0" = Except.ok (Option.some call) ∧
      call.options.ephemeralExpiration = Option.some 86400) ∧
    (∃ call, sendMessage [] "g@g.us" (Option.some "hi")
        (Option.some {}) "id0" = Except.ok (Option.some call) ∧
      call.options.ephemeralExpiration = Option.none) :=
  ⟨(c9_sendMessage_ephemeral [("g@g.us", 86400)] "g@g.us" "hi" "id0" {} 86400
      rfl).1 rfl (by norm_num),
   (c9_sendMessage_ephemeral [] "g@g.us" "hi" "id0" {} 86400 rfl).2 rfl⟩

/-- C2 counterexample: a plugin with `cmd: 'ping', noPrefix: true` under
prefixes `['.', '/']` is NOT resolvable under the bare token `ping`, and a
prefixed entry `.ping` IS created for it — `genPlugins` never consults
`noPrefix`. -/
theorem c2_counterexample :
    objGet (c2Result true).command "ping" = Option.none ∧
    (objGet (c2Result true).command ".ping").isSome = true := by
  decide

/-- C2 (amended): under prefixes `['.', '/']`, a plugin with `cmd: 'ping'`
is resolvable under both `.ping` and `/ping` whether or not it sets
`noPrefix` — `genPlugins` ignores `noPrefix`, so no bare `ping` entry is
created even for a `noPrefix` plugin — and each entry resolves through the
manager back to the registered plugin. -/
theorem c2_genPlugins_ignores_noPrefix (b : Bool) :
    objGet (c2Result b).command ".ping" =
      Option.some ⟨Option.some ".", "abcd1234-0", "plugins/ping.js"⟩ ∧
    objGet (c2Result b).command "/ping" =
      Option.some ⟨Option.some "/", "abcd1234-0", "plugins/ping.js"⟩ ∧
    objGet (c2Result b).command "ping" = Option.none ∧
    getPlugin (c2Mgr b) "plugins/ping.js" "abcd1234-0" =
      Option.some (Plugin.ofDesc (c2Desc b) "plugins/ping.js") := by
  cases b <;> decide

/-- C6 counterexample: a descriptor with no `exec` is NOT excluded from
registration — `PluginManager.add` registers it without checking `exec`,
and `genPlugins` places it in the listener table. -/
theorem c6_counterexample :
    (getPlugin c6Mgr "plugins/noop.js" "beef0000-0").isSome = true ∧
    (objGet c6Result.listener "beef0000-0").isSome = true := by
  decide

/-- C6 (amended): a descriptor with no `exec` IS registered in the
manager's plugin map and DOES get a listener-table entry (`add` and
`genPlugins` never check `exec`), but no action of it can ever run during
dispatch: the dispatch step only invokes `exec` when one is present, so
whatever its guard returns, `execRan` stays empty. -/
theorem c6_no_exec_still_registered (checkSuccess : Bool) :
    getPlugin c6Mgr "plugins/noop.js" "beef0000-0" =
      Option.some (Plugin.ofDesc c6Desc "plugins/noop.js") ∧
    objGet c6Result.listener "beef0000-0" =
      Option.some ⟨Option.none, "beef0000-0", "plugins/noop.js"⟩ ∧
    (dispatchStep (getPlugin c6Mgr "plugins/noop.js" "beef0000-0")
        checkSuccess).execRan = Option.none := by
  cases checkSuccess <;> decide

/-- C7 counterexample: a registered alias `Ping` under prefix `.` produces
the table key `.Ping` (`genPlugins` does not lowercase keys), but dispatch
looks up the LOWER-cased inbound pattern, so the inbound pattern `.Ping` —
equal to prefix+alias exactly, hence certainly "up to letter case" — is
not dispatched (and neither is `.ping`): the claimed case-insensitivity
fails for aliases containing uppercase letters. -/
theorem c7_counterexample :
    (objGet c7Result.command ".Ping").isSome = true ∧
    handleCommandPhase c7Mgr c7Result.command (Option.some ".Ping") true true = {} ∧
    handleCommandPhase c7Mgr c7Result.command (Option.some ".ping") true true = {} := by
  decide

/-- C7 (amended): dispatch looks the lower-cased inbound pattern up in the
command table, so matching is case-insensitive in the INBOUND pattern only
for aliases registered entirely in lowercase (an alias with an uppercase
letter yields a table key no lowered pattern can hit); when the lower-cased
pattern is absent from the table, dispatch ends silently — nothing
executes and no error is raised. -/
theorem c7_lowercase_lookup (a fp h e p : String) (safe cs : Bool)
    (ha : jsToLower a = a) (ha' : a ≠ "")
    (hp : jsToLower p = "." ++ a) (hp' : p ≠ "") :
    (handleCommandPhase
        (addPlugins [] fp h [⟨CmdField.str a, false, Option.some e, Option.none⟩])
        (genPlugins ["."] Option.none
          (addPlugins [] fp h [⟨CmdField.str a, false, Option.some e, Option.none⟩])).command
        (Option.some p) true true).execRan = Option.some e ∧
    (∀ q : String,
      objGet (genPlugins ["."] Option.none
          (addPlugins [] fp h [⟨CmdField.str a, false, Option.some e, Option.none⟩])).command
        (jsToLower q) = Option.none →
      handleCommandPhase
        (addPlugins [] fp h [⟨CmdField.str a, false, Option.some e, Option.none⟩])
        (genPlugins ["."] Option.none
          (addPlugins [] fp h [⟨CmdField.str a, false, Option.some e, Option.none⟩])).command
        (Option.some q) safe cs = {}) := by
  have h0 : (toString (0 : Nat) : String) = "0" := rfl
  have htable : (genPlugins ["."] Option.none
      (addPlugins [] fp h [⟨CmdField.str a, false, Option.some e, Option.none⟩])).command =
      [("." ++ a, ⟨Option.some ".", h ++ "-0", fp⟩)] := by
    simp [genPlugins, addPlugins, objErase, objSet, Plugin.ofDesc, cmdTruthy,
      cmdList, ha', h0, PluginResult.addCommand, PluginResult.addListener,
      String.append_assoc]
  constructor
  · rw [htable]
    simp only [handleCommandPhase, handleCommandLookup]
    rw [if_pos ⟨hp', trivial⟩, hp]
    simp [objGet, getPlugin, addPlugins, objErase, objSet, dispatchStep,
      Plugin.ofDesc, h0, String.append_assoc]
  · intro q hq
    simp only [handleCommandPhase, handleCommandLookup]
    by_cases hq' : q ≠ "" ∧ safe = true
    · rw [if_pos hq', hq]
    · rw [if_neg hq']

/-- C7 witness: alias `ping` registered as `.ping`, inbound `.PING`. -/
theorem c7_lowercase_lookup_witness :
    (handleCommandPhase
        (addPlugins [] "plugins/p.js" "ff00" [⟨CmdField.str "ping", false, Option.some "e", Option.none⟩])
        (genPlugins ["."] Option.none
          (addPlugins [] "plugins/p.js" "ff00" [⟨CmdField.str "ping", false, Option.some "e", Option.none⟩])).command
        (Option.some ".PING") true true).execRan = Option.some "e" ∧
    (∀ q : String,
      objGet (genPlugins ["."] Option.none
          (addPlugins [] "plugins/p.js" "ff00" [⟨CmdField.str "ping", false, Option.some "e", Option.none⟩])).command
        (jsToLower q) = Option.none →
      handleCommandPhase
        (addPlugins [] "plugins/p.js" "ff00" [⟨CmdField.str "ping", false, Option.some "e", Option.none⟩])
        (genPlugins ["."] Option.none
          (addPlugins [] "plugins/p.js" "ff00" [⟨CmdField.str "ping", false, Option.some "e", Option.none⟩])).command
        (Option.some q) false true = {}) :=
  c7_lowercase_lookup "ping" "plugins/p.js" "ff00" "e" ".PING" false true
    (by decide) (by decide) (by decide) (by decide)

/-- C8: on a group-participants `remove` event naming two participants both
present in the cached list (and no single cached participant answering to
both names), `updateGroupMetadata` drops exactly those two entries (count
down by two, every other entry kept, no entry added), writes the record
back with `size` recomputed to the new participant count, and performs no
full metadata refetch from the transport — the `fetched` transport value is
never consulted. -/
theorem c8_remove_two_no_refetch (gc : List (String × GMeta))
    (tc : List (String × Int)) (jid rm1 rm2 : String) (d : GMeta)
    (fetched : Option GMeta)
    (hmem : objGet gc jid = Option.some d)
    (h1 : ∃ p ∈ d.participants, partMatches rm1 p = true)
    (h2 : ∃ p ∈ d.participants, partMatches rm2 p = true)
    (hdisj : ∀ p ∈ d.participants,
      ¬(partMatches rm1 p = true ∧ partMatches rm2 p = true)) :
    ∃ d', updateGroupMetadata gc tc jid
        (Option.some ⟨GROUP_PARTICIPANTS_UPDATE, Option.some "remove", [rm1, rm2], []⟩)
        fetched =
      ⟨objSet gc jid d', updateTimer tc d'.id d'.ephemeralDuration, false,
        Option.some d'⟩ ∧
    d'.participants.length + 2 = d.participants.length ∧
    d'.size = Option.some d'.participants.length ∧
    d'.participants.Sublist d.participants ∧
    (∀ p ∈ d.participants, partMatches rm1 p = false →
      partMatches rm2 p = false → p ∈ d'.participants) := by
  have hr1 := removeOne_found rm1 d.participants h1
  have h2' := removeOne_preserves rm1 rm2 d.participants hdisj h2
  have hr2 := removeOne_found rm2 (removeOne rm1 d.participants).1 h2'
  have hstep : applyParticipantsAction (Option.some "remove") [rm1, rm2]
      d.participants false =
      ((removeOne rm2 (removeOne rm1 d.participants).1).1, true) := by
    simp [applyParticipantsAction, removeParticipants, hr1.1, hr2.1]
  refine ⟨{ d with
      participants := (removeOne rm2 (removeOne rm1 d.participants).1).1,
      size := Option.some (removeOne rm2 (removeOne rm1 d.participants).1).1.length },
    ?_, ?_, rfl, ?_, ?_⟩
  · simp only [updateGroupMetadata, hmem, hstep, GROUP_PARTICIPANTS_UPDATE]
    simp
  · have hl1 := hr1.2
    have hl2 := hr2.2
    dsimp only
    omega
  · exact ((removeOne_sublist rm2 _).trans (removeOne_sublist rm1 _))
  · intro p hp hn1 hn2
    exact removeOne_mem_of_no_match rm2 _ p
      (removeOne_mem_of_no_match rm1 _ p hp hn1) hn2

/-- C8 witness: a cached group of three participants, removing two. -/
theorem c8_remove_two_no_refetch_witness :
    ∃ d', updateGroupMetadata c8Cache [] "g@g.us"
        (Option.some ⟨GROUP_PARTICIPANTS_UPDATE, Option.some "remove",
          ["a@s", "b@s"], []⟩)
        Option.none =
      ⟨objSet c8Cache "g@g.us" d',
        updateTimer [] d'.id d'.ephemeralDuration, false, Option.some d'⟩ ∧
    d'.participants.length + 2 = c8Meta.participants.length ∧
    d'.size = Option.some d'.participants.length ∧
    d'.participants.Sublist c8Meta.participants ∧
    (∀ p ∈ c8Meta.participants,
      partMatches "a@s" p = false → partMatches "b@s" p = false →
      p ∈ d'.participants) :=
  c8_remove_two_no_refetch c8Cache [] "g@g.us" "a@s" "b@s" c8Meta Option.none
    (by decide) (by decide) (by decide) (by decide)

end Mushi
